import Mathlib

/-!
Shallow embedding of the runbridge dispatch pipeline and CGI transport codec
(route matching, middleware chain, CGI ingestion/egress, header validation,
bounded gzip decompression, Set-Cookie framing, log redaction), translated
from the Rust sources under src/, together with theorems settling the
frozen claims about it.
-/

namespace RunBridge

/-- ASCII lower-casing of a single character, modelling u8/char to_ascii_lowercase. -/
def asciiLowerChar (c : Char) : Char :=
  if 65 ≤ c.toNat ∧ c.toNat ≤ 90 then Char.ofNat (c.toNat + 32) else c

/-- ASCII lower-casing of a string, modelling str::to_ascii_lowercase (and
to_lowercase on the ASCII inputs this code applies it to). -/
def asciiLower (s : String) : String :=
  String.mk (s.data.map asciiLowerChar)

/-- Case-insensitive ASCII string comparison, modelling str::eq_ignore_ascii_case. -/
def eqIgnoreAsciiCase (a b : String) : Bool :=
  asciiLower a = asciiLower b

/-- UTF-8 encoding of one character as its byte values, modelling how Rust
str stores characters (used where the source operates on as_bytes or len). -/
def charUtf8Bytes (c : Char) : List Nat :=
  if c.toNat ≤ 0x7F then [c.toNat]
  else if c.toNat ≤ 0x7FF then [0xC0 + c.toNat / 64, 0x80 + c.toNat % 64]
  else if c.toNat ≤ 0xFFFF then
    [0xE0 + c.toNat / 4096, 0x80 + (c.toNat / 64) % 64, 0x80 + c.toNat % 64]
  else
    [0xF0 + c.toNat / 262144, 0x80 + (c.toNat / 4096) % 64, 0x80 + (c.toNat / 64) % 64,
      0x80 + c.toNat % 64]

/-- UTF-8 byte sequence of a string, modelling str::as_bytes. -/
def utf8Bytes (s : String) : List Nat :=
  (s.data.map charUtf8Bytes).flatten

/-- UTF-8 byte length of a string, modelling str::len. -/
def utf8Len (s : String) : Nat :=
  (utf8Bytes s).length

/-- Lookup in a string-keyed map, modelling HashMap::get with the map as an
association list in iteration order. -/
def amGet : List (String × String) → String → Option String
  | [], _ => none
  | (k0, v0) :: rest, k => if k0 = k then some v0 else amGet rest k

/-- Insertion into a string-keyed map, modelling HashMap::insert (replace the
value of an existing key, else add the entry). -/
def amInsert : List (String × String) → String → String → List (String × String)
  | [], k, v => [(k, v)]
  | (k0, v0) :: rest, k, v =>
    if k0 = k then (k, v) :: rest else (k0, v0) :: amInsert rest k v

/-- Removal from a string-keyed map, modelling HashMap::remove. -/
def amRemove : List (String × String) → String → List (String × String)
  | [], _ => []
  | (k0, v0) :: rest, k =>
    if k0 = k then amRemove rest k else (k0, v0) :: amRemove rest k

/-- Insert-if-absent, modelling HashMap::entry(k).or_insert_with(v). -/
def amEntryOrInsert (m : List (String × String)) (k v : String) : List (String × String) :=
  match amGet m k with
  | some _ => m
  | none => m ++ [(k, v)]

/-- Header-value validator of common/utils.rs (is_header_value_valid): the
empty value is allowed, otherwise every character must have code at least
0x20, must not be DEL (0x7F), and must not be CR or LF.  Note this variant
works on chars, rejects TAB and accepts non-ASCII characters. -/
def is_header_value_valid (value : String) : Bool :=
  if value = "" then true
  else value.data.all fun c =>
    decide (0x20 ≤ c.toNat ∧ c.toNat ≠ 0x7F ∧ c ≠ '\r' ∧ c ≠ '\n')

/-- Header-name validator of cgi/validation.rs (is_valid_header_name):
non-empty and every byte an ASCII letter, digit or hyphen. -/
def is_valid_header_name (name : String) : Bool :=
  let b := utf8Bytes name
  !b.isEmpty && b.all fun c =>
    decide ((48 ≤ c ∧ c ≤ 57) ∨ (65 ≤ c ∧ c ≤ 90) ∨ (97 ≤ c ∧ c ≤ 122) ∨ c = 45)

/-- Header-value validator of cgi/validation.rs (is_valid_header_value):
every byte is HTAB (0x09), SP (0x20) or visible ASCII 0x21 to 0x7E. -/
def is_valid_header_value (value : String) : Bool :=
  (utf8Bytes value).all fun c => decide (c = 9 ∨ c = 0x20 ∨ (0x21 ≤ c ∧ c ≤ 0x7E))

/-- HTTP methods of common/http.rs. -/
inductive Method where
  | GET | POST | PUT | DELETE | PATCH | HEAD | OPTIONS
deriving DecidableEq

/-- Display form of a method, modelling the fmt::Display impl. -/
def Method.str : Method → String
  | .GET => "GET"
  | .POST => "POST"
  | .PUT => "PUT"
  | .DELETE => "DELETE"
  | .PATCH => "PATCH"
  | .HEAD => "HEAD"
  | .OPTIONS => "OPTIONS"

/-- Error type of error.rs.  The snapshot of error.rs in this revision lacks
the payloadTooLarge variant although cgi and http code constructs it;
payloadTooLarge is modelled from the spec: payload-too-large is error kind
413 in the error-kind table of section 7. -/
inductive Err where
  | routeNotFound (msg : String)
  | invalidRequestBody (msg : String)
  | responseSerializationError (msg : String)
  | middlewareError (msg : String)
  | internalServerError (msg : String)
  | configurationError (msg : String)
  | externalServiceError (msg : String)
  | authenticationError (msg : String)
  | authorizationError (msg : String)
  | payloadTooLarge (msg : String)
deriving DecidableEq

/-- Error to status-code mapping of error.rs (status_code), with 413 for the
spec-modelled payloadTooLarge variant. -/
def Err.status_code : Err → Nat
  | .routeNotFound _ => 404
  | .invalidRequestBody _ => 400
  | .responseSerializationError _ => 500
  | .middlewareError _ => 500
  | .internalServerError _ => 500
  | .configurationError _ => 500
  | .externalServiceError _ => 502
  | .authenticationError _ => 401
  | .authorizationError _ => 403
  | .payloadTooLarge _ => 413

/-- Display text of an error, modelling the thiserror error attributes. -/
def Err.display : Err → String
  | .routeNotFound m => "Route not found: " ++ m
  | .invalidRequestBody m => "Invalid request body: " ++ m
  | .responseSerializationError m => "Failed to serialize response: " ++ m
  | .middlewareError m => "Middleware error: " ++ m
  | .internalServerError m => "Internal server error: " ++ m
  | .configurationError m => "Configuration error: " ++ m
  | .externalServiceError m => "External service error: " ++ m
  | .authenticationError m => "Authentication error: " ++ m
  | .authorizationError m => "Authorization error: " ++ m
  | .payloadTooLarge m => "Payload too large: " ++ m

/-- Default security headers injected on Response construction
(inject_default_security_headers of common/http.rs). -/
def injectDefaultSecurityHeaders (m : List (String × String)) : List (String × String) :=
  let m := amEntryOrInsert m "X-Content-Type-Options" "nosniff"
  let m := amEntryOrInsert m "X-Frame-Options" "DENY"
  let m := amEntryOrInsert m "X-XSS-Protection" "1; mode=block"
  let m := amEntryOrInsert m "Referrer-Policy" "strict-origin-when-cross-origin"
  amEntryOrInsert m "Content-Security-Policy" "default-src 'self'"

/-- HTTP response of common/http.rs: status, header map (iteration order kept
as list order), optional body bytes. -/
structure Response where
  status : Nat
  headers : List (String × String)
  body : Option (List Nat)
deriving DecidableEq

/-- Response constructor (Response::new) with default security headers. -/
def Response.new (status : Nat) : Response :=
  { status := status, headers := injectDefaultSecurityHeaders [], body := none }

/-- Response::with_header: the pair is dropped when the value fails the
common/utils.rs validator, otherwise inserted as given. -/
def Response.with_header (r : Response) (k v : String) : Response :=
  if is_header_value_valid v then { r with headers := amInsert r.headers k v } else r

/-- Response::with_body. -/
def Response.with_body (r : Response) (b : List Nat) : Response :=
  { r with body := some b }

/-- Response::not_found. -/
def Response.not_found : Response := Response.new 404

/-- Response::internal_server_error. -/
def Response.internal_server_error : Response := Response.new 500

/-- Fixed body message keyed off the status code, from Response::from_error. -/
def statusFixedMessage (status : Nat) : String :=
  if status = 400 then "Bad Request"
  else if status = 401 then "Unauthorized"
  else if status = 403 then "Forbidden"
  else if status = 404 then "Not Found"
  else if status = 413 then "Payload Too Large"
  else if status = 500 ∨ status = 502 then "Internal Server Error"
  else "Error"

/-- Response::from_error: fixed-message response derived from the status. -/
def Response.from_error (e : Err) : Response :=
  ((Response.new e.status_code).with_header "Content-Type" "text/plain").with_body
    (utf8Bytes (statusFixedMessage e.status_code))

/-- HTTP request of common/http.rs; the typed per-request context map is kept
as an opaque association list since no claim inspects its contents. -/
structure Request where
  method : Method
  path : String
  query_params : List (String × String)
  headers : List (String × String)
  body : Option (List Nat)
  context : List (String × String)
deriving DecidableEq

/-- Request constructor (Request::new). -/
def Request.new (m : Method) (path : String) : Request :=
  { method := m, path := path, query_params := [], headers := [], body := none, context := [] }

/-- Request::with_header: keys are lower-cased; the pair is dropped when the
value fails the common/utils.rs validator. -/
def Request.with_header (r : Request) (k v : String) : Request :=
  if is_header_value_valid v then
    { r with headers := amInsert r.headers (asciiLower k) v }
  else r

/-- Response builder of common/http.rs. -/
structure ResponseBuilder where
  status : Nat
  headers : List (String × String)
  body : Option (List Nat)
deriving DecidableEq

/-- ResponseBuilder::new with default security headers. -/
def ResponseBuilder.new (status : Nat) : ResponseBuilder :=
  { status := status, headers := injectDefaultSecurityHeaders [], body := none }

/-- ResponseBuilder::header: value-validated single insertion. -/
def ResponseBuilder.header (b : ResponseBuilder) (k v : String) : ResponseBuilder :=
  if is_header_value_valid v then { b with headers := amInsert b.headers k v } else b

/-- ResponseBuilder::headers: bulk insertion via HashMap::extend, with no
value validation. -/
def ResponseBuilder.headersExtend (b : ResponseBuilder) (m : List (String × String)) :
    ResponseBuilder :=
  { b with headers := m.foldl (fun acc p => amInsert acc p.1 p.2) b.headers }

/-- Middleware of common/traits.rs: a fallible pre-step on the request and a
fallible post-step on the response. -/
structure MW where
  pre : Request → Except Err Request
  post : Response → Except Err Response

/-- Registered route handler of handler/core.rs, with the compiled anchored
regular expression abstracted to a boolean path predicate (a pattern that
failed to compile is the constantly-false predicate, matching the
fail-closed behaviour); rid is an inert registration tag used solely to
observe ordering in theorems. -/
structure HandlerM where
  method : Method
  path_pattern : String
  rid : Nat
  matchesPath : String → Bool
  handle : Request → Except Err Response

/-- Handler::matches of handler/core.rs: the method must equal the request
method, then the compiled pattern is consulted. -/
def HandlerM.matches (h : HandlerM) (path : String) (m : Method) : Bool :=
  if h.method = m then h.matchesPath path else false

/-- The built application of lib.rs: route table and middleware chain. -/
structure App where
  handlers : List HandlerM
  middlewares : List MW

/-- RunBridge::find_handler: first entry matching path and method. -/
def App.find_handler (app : App) (path : String) (m : Method) : Option HandlerM :=
  app.handlers.find? (fun h => h.matches path m)

/-- Middleware pre-processing loop of cgi/core.rs process_request: each
pre-step in registration order, the first error short-circuits. -/
def applyPre : List MW → Request → Except Err Request
  | [], r => .ok r
  | m :: ms, r =>
    match m.pre r with
    | .ok r2 => applyPre ms r2
    | .error e => .error e

/-- Middleware post-processing loop of cgi/core.rs process_request: each
post-step in registration order; a post-step error replaces the in-flight
response by Response::from_error and the remaining steps continue. -/
def applyPost : List MW → Response → Response
  | [], r => r
  | m :: ms, r =>
    match m.post r with
    | .ok r2 => applyPost ms r2
    | .error e => applyPost ms (Response.from_error e)

/-- The CGI dispatcher process_request of cgi/core.rs: find a handler (else
route-not-found), run pre-middleware, run the handler, and on a handler
error return Response::from_error directly; on success run post-middleware. -/
def process_request (app : App) (req : Request) : Except Err Response :=
  match app.find_handler req.path req.method with
  | none => .error (.routeNotFound (req.method.str ++ " " ++ req.path))
  | some h =>
    match applyPre app.middlewares req with
    | .error e => .error e
    | .ok req2 =>
      match h.handle req2 with
      | .error e => .ok (Response.from_error e)
      | .ok res => .ok (applyPost app.middlewares res)

/-- Conversion of an error propagated out of process_request into a response,
from the error match in run_cgi of cgi/core.rs: route-not-found becomes a
404 whose body embeds the error message, everything else a 500 whose body
embeds the error display text. -/
def cgiErrorResponse (e : Err) : Response :=
  match e with
  | .routeNotFound msg =>
    (Response.not_found.with_header "Content-Type" "text/plain").with_body
      (utf8Bytes ("Not Found: " ++ msg))
  | _ =>
    (Response.internal_server_error.with_header "Content-Type" "text/plain").with_body
      (utf8Bytes ("Internal Server Error: " ++ e.display))

/-- Response produced by run_cgi when the supervised task panics: a fixed
500 with body Internal Server Error. -/
def panicResponse : Response :=
  (Response.internal_server_error.with_header "Content-Type" "text/plain").with_body
    (utf8Bytes "Internal Server Error")

/-- Response produced by run_cgi when body reading reports payload-too-large:
a fixed 413. -/
def payloadTooLargeResponse : Response :=
  ((Response.new 413).with_header "Content-Type" "text/plain").with_body
    (utf8Bytes "Payload Too Large")

/-- Response produced by run_cgi when gzip decompression fails: a 400 whose
body embeds the error display text. -/
def gzipFailResponse (e : Err) : Response :=
  ((Response.new 400).with_header "Content-Type" "text/plain").with_body
    (utf8Bytes ("Bad Request: " ++ e.display))

/-- Bounded gzip decompression loop of Request::decompress_gzip_body, over
the sequence of chunk reads the decoder yields (each read of the 8 KiB
buffer), terminated either cleanly (none) or by a decode error message
(some emsg).  Before a chunk is appended the accumulated size plus the
chunk size is checked against the maximum. -/
def gzipLoop (max : Nat) (acc : List Nat) :
    List (List Nat) → Option String → Except Err (List Nat)
  | [], none => .ok acc
  | [], some emsg =>
    .error (.invalidRequestBody ("Invalid gzip-encoded request body: " ++ emsg))
  | c :: cs, t =>
    if acc.length + c.length > max then
      .error (.payloadTooLarge "Decompressed body too large")
    else gzipLoop max (acc ++ c) cs t

/-- Request::decompress_gzip_body of common/http.rs, parameterised by the
gzip decoder (flate2 is an external library): decode yields the chunk
reads and an optional trailing decode error.  Runs only when the
content-encoding header equals gzip case-insensitively and a body is
present; on success the body is replaced and the header removed. -/
def decompress_gzip_body (decode : List Nat → List (List Nat) × Option String)
    (max : Nat) (req : Request) : Except Err Request :=
  match amGet req.headers "content-encoding" with
  | none => .ok req
  | some enc =>
    if asciiLower enc = "gzip" then
      match req.body with
      | none => .ok req
      | some bodyData =>
        match gzipLoop max [] (decode bodyData).1 (decode bodyData).2 with
        | .error e => .error e
        | .ok out =>
          .ok { req with body := some out, headers := amRemove req.headers "content-encoding" }
    else .ok req

/-- First buffer crossing point of the gzip guard: the amount already
buffered at the moment the size check first fires (or the total when it
never fires).  Mirrors the loop of decompress_gzip_body. -/
def gzipBufferedOnAbort (max n : Nat) : List (List Nat) → Nat
  | [] => n
  | c :: cs => if n + c.length > max then n else gzipBufferedOnAbort max (n + c.length) cs

/-- Rust usize string parsing as used on CONTENT_LENGTH: optional leading
plus sign, one or more ASCII digits, value within 64 bits. -/
def parseUsize (s : String) : Option Nat :=
  let digits := match s.data with
    | '+' :: rest => rest
    | l => l
  if digits = [] then none
  else if digits.all Char.isDigit then
    let n := digits.foldl (fun acc c => acc * 10 + (c.toNat - 48)) 0
    if n < 2 ^ 64 then some n else none
  else none

/-- read_request_body of cgi/request.rs, with the environment value of
CONTENT_LENGTH and standard input made explicit.  Returns the result
together with the number of bytes consumed from standard input: the
payload-too-large error is raised before any read, and otherwise exactly
content-length bytes are read (read_exact; fewer available is an
invalid-body error). -/
def read_request_body (contentLength : Option String) (max : Nat) (stdin : List Nat) :
    Except Err (Option (List Nat)) × Nat :=
  match contentLength with
  | none => (.ok none, 0)
  | some s =>
    match parseUsize s with
    | none => (.ok none, 0)
    | some n =>
      if n > 0 then
        if n > max then
          (.error (.payloadTooLarge "Request body size exceeds maximum allowed size"), 0)
        else if n ≤ stdin.length then (.ok (some (stdin.take n)), n)
        else (.error (.invalidRequestBody "Failed to read request body"), stdin.length)
      else (.ok none, 0)

/-- Body-reading step of run_cgi in cgi/core.rs: a payload-too-large error is
turned into the fixed 413 response written immediately (inl); any other
error propagates (inr); otherwise the optional body continues onward. -/
def runCgiBodyOutcome (contentLength : Option String) (max : Nat) (stdin : List Nat) :
    Except (Response ⊕ Err) (Option (List Nat)) :=
  match (read_request_body contentLength max stdin).1 with
  | .ok b => .ok b
  | .error (.payloadTooLarge _) => .error (.inl payloadTooLargeResponse)
  | .error e => .error (.inr e)

/-- Whitespace trim of str::trim as used on cookie fragments. -/
def sscTrim (s : List Char) : List Char :=
  ((s.dropWhile Char.isWhitespace).reverse.dropWhile Char.isWhitespace).reverse

/-- Lookahead of split_set_cookie_header behind a comma: scan until the next
semicolon or comma and report whether an equals sign appears first. -/
def sscSeenEq : List Char → Bool
  | [] => false
  | c :: cs => if c = ';' ∨ c = ',' then false else if c = '=' then true else sscSeenEq cs

/-- Lookahead of split_set_cookie_header at a letter E: do the next seven
characters spell xpires= case-insensitively. -/
def sscExpiresAfter : List Char → Bool
  | c1 :: c2 :: c3 :: c4 :: c5 :: c6 :: c7 :: _ =>
    decide (asciiLowerChar c1 = 'x' ∧ asciiLowerChar c2 = 'p' ∧ asciiLowerChar c3 = 'i' ∧
      asciiLowerChar c4 = 'r' ∧ asciiLowerChar c5 = 'e' ∧ asciiLowerChar c6 = 's' ∧
      asciiLowerChar c7 = '=')
  | _ => false

/-- Buffer flush of split_set_cookie_header: trim and push when non-empty. -/
def sscFlush (buf : List Char) (acc : List String) : List String :=
  let t := sscTrim buf
  if t = [] then acc else acc ++ [String.mk t]

/-- Character scan of split_set_cookie_header in cgi/response.rs.  Fuel is the
number of characters still to be consumed; every step consumes at least one
character, so fuel equal to the input length is always sufficient and the
fuel-exhausted branch coincides with the end-of-input branch. -/
def sscGo : Nat → List Char → List Char → Bool → List String → List String
  | 0, _, buf, _, acc => sscFlush buf acc
  | _ + 1, [], buf, _, acc => sscFlush buf acc
  | fl + 1, ch :: rest, buf, inExp, acc =>
    if ch = ';' then sscGo fl rest (buf ++ [ch]) false acc
    else if ch = ',' then
      if inExp then sscGo fl rest (buf ++ [ch]) inExp acc
      else
        let rest2 := rest.dropWhile fun c => c = ' '
        if sscSeenEq rest2 then sscGo fl rest2 [] inExp (sscFlush buf acc)
        else sscGo fl rest2 (buf ++ [',']) inExp acc
    else if ch = 'E' ∨ ch = 'e' then
      sscGo fl rest (buf ++ [ch]) (if sscExpiresAfter rest then true else inExp) acc
    else sscGo fl rest (buf ++ [ch]) inExp acc

/-- split_set_cookie_header of cgi/response.rs: split a concatenated
Set-Cookie value into single cookies, keeping commas inside an Expires
attribute literal. -/
def split_set_cookie_header (value : String) : List String :=
  sscGo value.data.length value.data [] false []

/-- Reason phrases of write_response_to in cgi/response.rs. -/
def reason_phrase (status : Nat) : String :=
  if status = 200 then "OK"
  else if status = 201 then "Created"
  else if status = 204 then "No Content"
  else if status = 400 then "Bad Request"
  else if status = 401 then "Unauthorized"
  else if status = 403 then "Forbidden"
  else if status = 404 then "Not Found"
  else if status = 413 then "Payload Too Large"
  else if status = 500 then "Internal Server Error"
  else "Unknown"

/-- Framer-owned headers skipped by the egress re-validation. -/
def isReservedHeader (name : String) : Bool :=
  eqIgnoreAsciiCase name "Status" || eqIgnoreAsciiCase name "Content-Length"

/-- Egress header re-validation loop of write_response_to: reserved headers
are skipped; the first invalid header aborts the collection (none), which
in the caller replaces the whole response by the safe 400. -/
def collectSanitized : List (String × String) → Option (List (String × String))
  | [] => some []
  | (n, v) :: rest =>
    if isReservedHeader n then collectSanitized rest
    else if is_valid_header_name n && is_valid_header_value v then
      (collectSanitized rest).map fun l => (n, v) :: l
    else none

/-- The safe replacement response built by write_response_to on an invalid
header. -/
def safe400 : Response :=
  ((Response.new 400).with_header "Content-Type" "text/plain; charset=utf-8").with_body
    (utf8Bytes "Bad Request: Invalid header")

/-- Output lines of write_response_to given the surviving sanitized headers:
status line, normal headers, one Set-Cookie line per split cookie, then
the framer-computed Content-Length when a body is present. -/
def frameLines (resp : Response) (sanitized : List (String × String)) : List String :=
  let statusLine := "Status: " ++ toString resp.status ++ " " ++ reason_phrase resp.status
  let normal := sanitized.filter fun p => !(eqIgnoreAsciiCase p.1 "Set-Cookie")
  let cookieVals :=
    ((sanitized.filter fun p => eqIgnoreAsciiCase p.1 "Set-Cookie").map fun p =>
      let parts := split_set_cookie_header p.2
      if parts = [] then [p.2] else parts).flatten
  [statusLine] ++ normal.map (fun p => p.1 ++ ": " ++ p.2) ++
    cookieVals.map (fun c => "Set-Cookie: " ++ c) ++
    (match resp.body with
     | some b => ["Content-Length: " ++ toString b.length]
     | none => [])

/-- write_response_to of cgi/response.rs as the pair of emitted header lines
and the body bytes written after the blank separator line.  An invalid
header replaces the entire response by the safe 400 with no headers kept. -/
def write_response_to (resp : Response) : List String × Option (List Nat) :=
  match collectSanitized resp.headers with
  | none => (frameLines safe400 [], safe400.body)
  | some hs => (frameLines resp hs, resp.body)

/-- Substring test over character lists, modelling str::contains. -/
def listHasInfix (pat : List Char) : List Char → Bool
  | [] => pat.isEmpty
  | c :: cs => pat.isPrefixOf (c :: cs) || listHasInfix pat cs

/-- Substring test on strings, modelling str::contains. -/
def strContainsSub (hay pat : String) : Bool :=
  listHasInfix pat.data hay.data

/-- Credential-like substrings of is_sensitive_key_like in
cgi/error_logging.rs. -/
def sensitivePatterns : List String :=
  ["authorization", "cookie", "token", "secret", "password", "pass", "api-key",
   "api_key", "apikey", "x-api-key", "x_api_key", "jwt", "auth", "session",
   "csrf", "signature", "private", "key", "credential", "access_token",
   "refresh_token", "bearer", "basic"]

/-- is_sensitive_key_like of cgi/error_logging.rs. -/
def is_sensitive_key_like (lowerKey : String) : Bool :=
  sensitivePatterns.any fun p => strContainsSub lowerKey p

/-- Split at the first equals sign, modelling str::splitn(2, eq) as used on a
query-string parameter: the key and the remainder (empty when absent). -/
def splitn2Eq (part : String) : String × String :=
  let k := part.data.takeWhile fun c => c ≠ '='
  match part.data.dropWhile (fun c => c ≠ '=') with
  | [] => (String.mk k, "")
  | _ :: rest => (String.mk k, String.mk rest)

/-- redact_query_string of cgi/error_logging.rs: parameter-by-parameter
redaction keyed on the sensitive-substring test of each parameter key. -/
def redact_query_string (qs : String) : String :=
  if qs = "" then qs
  else
    let parts := (qs.splitOn "&").filter fun p => p ≠ ""
    let outParts := parts.map fun part =>
      let kv := splitn2Eq part
      if is_sensitive_key_like (asciiLower kv.1) then kv.1 ++ "=***redacted***"
      else kv.1 ++ "=" ++ kv.2
    String.intercalate "&" outParts

/-- Byte-indexed string prefix of a char list: the chars making up exactly n
UTF-8 bytes, or none when n is not a character boundary (the case where
the Rust slice value[..n] panics). -/
def byteTakeOpt (n : Nat) (l : List Char) : Option (List Char) :=
  if n = 0 then some []
  else
    match l with
    | [] => none
    | c :: cs =>
      let sz := (charUtf8Bytes c).length
      if sz ≤ n then (byteTakeOpt (n - sz) cs).map (fun r => c :: r) else none

/-- redact_value_for_log of cgi/error_logging.rs.  The result is optional
because the truncation branch slices the value at byte index 200, which in
Rust panics when that index is not a character boundary; none models that
panic. -/
def redact_value_for_log (key value : String) : Option String :=
  let keyL := asciiLower key
  if keyL = "query_string" then some (redact_query_string value)
  else if is_sensitive_key_like keyL then some "***redacted***"
  else if utf8Len value > 200 then
    (byteTakeOpt 200 value.data).map fun p => String.mk p ++ "...[truncated]"
  else some value

/-- Slash count of a path pattern, the sort key of RunBridgeBuilder::handler
(pattern.matches of the slash character, counted). -/
def slashes (p : String) : Nat :=
  p.data.countP fun c => decide (c = '/')

/-- Comparator relation of the route-table sort: an entry precedes another
when its pattern has at least as many slashes (descending depth). -/
def depthGE (a b : HandlerM) : Prop :=
  slashes b.path_pattern ≤ slashes a.path_pattern

instance : DecidableRel depthGE :=
  fun a b => inferInstanceAs (Decidable (slashes b.path_pattern ≤ slashes a.path_pattern))

instance : IsTotal HandlerM depthGE :=
  ⟨fun a b => (Nat.le_total (slashes a.path_pattern) (slashes b.path_pattern)).elim Or.inr Or.inl⟩

instance : IsTrans HandlerM depthGE :=
  ⟨fun _ _ _ hab hbc => Nat.le_trans hbc hab⟩

/-- Contract of Vec::sort_unstable_by with the slash-count comparator: the
output is a permutation of the input, sorted by descending slash count.
The order of entries with equal slash counts is not constrained, exactly as
an unstable sort leaves it unspecified. -/
def ConformingSort (f : List HandlerM → List HandlerM) : Prop :=
  ∀ l, (f l).Perm l ∧ List.Sorted depthGE (f l)

/-- One sort behaviour permitted by the contract: insertion sort that places
a newly inserted entry in front of entries with an equal slash count. -/
def antiStableSort (l : List HandlerM) : List HandlerM :=
  l.foldl (fun acc e => List.orderedInsert depthGE e acc) []

/-- Route registration loop of RunBridgeBuilder::handler: push the new entry
and re-sort the whole table after every registration. -/
def registerAll (sortImpl : List HandlerM → List HandlerM) (regs : List HandlerM) :
    List HandlerM :=
  regs.foldl (fun acc e => sortImpl (acc ++ [e])) []

/-- RunBridge::find_handler over a route table: the first entry whose method
and pattern both match. -/
def find_route (hs : List HandlerM) (path : String) (m : Method) : Option HandlerM :=
  hs.find? fun h => h.matches path m

/-- Inert handler body for route-table fixtures. -/
def noHandle : Request → Except Err Response :=
  fun _ => .error (.internalServerError "unreached")

/-- Route fixture registered first, one slash in its pattern. -/
def exEntryA : HandlerM :=
  { method := .GET, path_pattern := "^/a$", rid := 1,
    matchesPath := fun p => decide (p = "/a"), handle := noHandle }

/-- Route fixture registered second, also one slash in its pattern. -/
def exEntryB : HandlerM :=
  { method := .GET, path_pattern := "^/b$", rid := 2,
    matchesPath := fun p => decide (p = "/b"), handle := noHandle }

/-- Dispatcher fixture: a handler whose body reports an error. -/
def exHandler : HandlerM :=
  { method := .GET, path_pattern := "^/x$", rid := 1,
    matchesPath := fun p => decide (p = "/x"),
    handle := fun _ => .error (.internalServerError "boom") }

/-- Dispatcher fixture: a middleware whose post-step visibly rewrites the
response by adding a header. -/
def exPostMW : MW :=
  { pre := fun r => .ok r, post := fun r => .ok (r.with_header "X-Post" "1") }

/-- Dispatcher fixture application. -/
def exApp : App :=
  { handlers := [exHandler], middlewares := [exPostMW] }

/-- Dispatcher fixture request. -/
def exReq : Request := Request.new .GET "/x"

/-- Gzip decoder fixture: two clean chunk reads. -/
def exDecodeOk : List Nat → List (List Nat) × Option String :=
  fun _ => ([[10, 20], [30]], none)

/-- Gzip decoder fixture: an immediate decode error. -/
def exDecodeErr : List Nat → List (List Nat) × Option String :=
  fun _ => ([], some "corrupt deflate stream")

/-- Gzip decoder fixture: a single chunk of four bytes. -/
def exDecodeBig : List Nat → List (List Nat) × Option String :=
  fun _ => ([[1, 2, 3, 4]], none)

/-- Request fixture carrying a gzip content-encoding header and a body. -/
def exGzipReq : Request :=
  { method := .POST, path := "/t", query_params := [],
    headers := [("content-encoding", "gzip")], body := some [9, 9], context := [] }

/-- Bad-character predicate of the claim about silent header dropping: the
value contains CR, LF, or a control character (including DEL) other than
horizontal tab. -/
def hasBadHeaderChar (v : String) : Bool :=
  v.data.any fun c =>
    decide (c = '\r' ∨ c = '\n' ∨ ((c.toNat < 0x20 ∨ c.toNat = 0x7F) ∧ c ≠ '\t'))

/-- Set-Cookie value of end-to-end scenario D. -/
def scenarioDValue : String :=
  "a=1; Path=/, b=2; Path=/; Secure, c=3; Expires=Tue, 31 Dec 2024 23:59:59 GMT; Path=/"

/-- Response carrying the scenario-D Set-Cookie value. -/
def scenarioDResponse : Response :=
  { status := 200, headers := [("Set-Cookie", scenarioDValue)], body := none }

/-- Environment key of the redaction failing input: not credential-like, so
the truncation branch runs. -/
def redactKey : String := "HTTP_USER_AGENT"

/-- Environment value of the redaction failing input: 202 UTF-8 bytes whose
byte index 200 falls inside the final three-byte character. -/
def redactVal : String := String.mk (List.replicate 199 'a' ++ ['あ'])

/-- Response fixture with one invalid header value for the egress check. -/
def exBadResp : Response :=
  { status := 200, headers := [("X-Bad", "a\nb"), ("Good", "v")], body := some [65] }

/-- Response fixture with only valid headers, one of them framer-owned. -/
def exGoodResp : Response :=
  { status := 200, headers := [("X-Ok", "v"), ("Content-Length", "999")], body := none }

/-- Insertion always stores the pair: lookup of the inserted key succeeds. -/
theorem amGet_amInsert (m : List (String × String)) (k v : String) :
    amGet (amInsert m k v) k = some v := by
  induction m with
  | nil => simp [amInsert, amGet]
  | cons p rest ih =>
    obtain ⟨k0, v0⟩ := p
    by_cases h : k0 = k
    · simp [amInsert, h, amGet]
    · simp [amInsert, h, amGet, ih]

/-- A value containing CR, LF or a non-tab control character fails the
common/utils.rs validator. -/
theorem bad_char_invalid (v : String) (h : hasBadHeaderChar v = true) :
    is_header_value_valid v = false := by
  rcases List.any_eq_true.mp h with ⟨c, hmem, hc⟩
  have hbad := of_decide_eq_true hc
  have hne : ¬ v = "" := by
    intro hv
    subst hv
    simp [String.data] at hmem
  unfold is_header_value_valid
  rw [if_neg hne]
  rw [List.all_eq_false]
  refine ⟨c, hmem, ?_⟩
  rw [decide_eq_true_eq]
  intro hgood
  rcases hbad with hr | hn | hctl
  · exact hgood.2.2.1 hr
  · exact hgood.2.2.2 hn
  · rcases hctl.1 with hlt | heq
    · have h1 := hgood.1
      omega
    · exact hgood.2.1 heq

/-- Byte-wise all over a string distributes over its characters. -/
theorem utf8_all_chars (p : Nat → Bool) (l : List Char) :
    ((l.map charUtf8Bytes).flatten).all p = l.all fun c => (charUtf8Bytes c).all p := by
  induction l with
  | nil => rfl
  | cons c cs ih => simp [List.all_append, ih]

/-- The byte-level whitelist of cgi/validation.rs holds of all UTF-8 bytes of
a character exactly when the character itself is tab, space or visible
ASCII. -/
theorem charBytes_hv (c : Char) :
    ((charUtf8Bytes c).all fun b => decide (b = 9 ∨ b = 0x20 ∨ (0x21 ≤ b ∧ b ≤ 0x7E))) = true
      ↔ (c.toNat = 9 ∨ c.toNat = 32 ∨ (33 ≤ c.toNat ∧ c.toNat ≤ 126)) := by
  unfold charUtf8Bytes
  split_ifs with h1 h2 h3
  · simp only [List.all_cons, List.all_nil, Bool.and_true, decide_eq_true_eq]
  · simp only [List.all_cons, List.all_nil, Bool.and_true, Bool.and_eq_true, decide_eq_true_eq]
    omega
  · simp only [List.all_cons, List.all_nil, Bool.and_true, Bool.and_eq_true, decide_eq_true_eq]
    omega
  · simp only [List.all_cons, List.all_nil, Bool.and_true, Bool.and_eq_true, decide_eq_true_eq]
    omega

/-- C3 counterexample: the two cited sanitizer functions disagree with the
claimed acceptance set; common/utils.rs is_header_value_valid rejects the
all-tab string the claim says is accepted, and accepts a non-ASCII
character outside the claimed set, while cgi/validation.rs
is_valid_header_value accepts the tab. -/
theorem C3_counterexample :
    is_header_value_valid "\t" = false ∧ is_valid_header_value "\t" = true ∧
    is_header_value_valid "¡" = true := by
  decide

/-- C3 amended: the CGI sanitizer is_valid_header_value of cgi/validation.rs
accepts a string exactly when every character is horizontal tab (9), space
(32) or printable ASCII 0x21 to 0x7E; in particular strings containing CR,
LF or any other control character are rejected and strings restricted to
tab, space and 0x21 to 0x7E are accepted.  (The common/utils.rs variant
differs: it rejects tab and accepts non-ASCII, see the counterexample.) -/
theorem C3_theorem (value : String) :
    is_valid_header_value value = true ↔
      ∀ c ∈ value.data, (c.toNat = 9 ∨ c.toNat = 32 ∨ (33 ≤ c.toNat ∧ c.toNat ≤ 126)) := by
  unfold is_valid_header_value utf8Bytes
  rw [utf8_all_chars, List.all_eq_true]
  constructor
  · intro hall c hc
    exact (charBytes_hv c).mp (hall c hc)
  · intro hall c hc
    exact (charBytes_hv c).mpr (hall c hc)

/-- C3 witness: the amended characterization applied at a concrete accepted
value. -/
theorem C3_witness :
    is_valid_header_value "ok value" = true := by
  have h := C3_theorem "ok value"
  exact h.mpr (by decide)

/-- C1 counterexample: with one registered post-middleware that visibly
rewrites responses, a handler that reports an error makes the CGI
dispatcher return Response::from_error directly, and the post-middleware
chain is not applied to it even though applying it would have changed the
response. -/
theorem C1_counterexample :
    process_request exApp exReq = .ok (Response.from_error (.internalServerError "boom")) ∧
    applyPost exApp.middlewares (Response.from_error (.internalServerError "boom")) ≠
      Response.from_error (.internalServerError "boom") := by
  constructor
  · rfl
  · decide

/-- C1 amended: in the CGI dispatcher a handler error is converted to
Response::from_error and returned immediately, with no post-middleware
applied; a post-middleware error (reachable when the handler succeeded)
replaces the in-flight response by the standard response for that error
and the remaining post-steps are applied to the replacement. -/
theorem C1_theorem :
    (∀ (app : App) (req req2 : Request) (h : HandlerM) (e : Err),
        app.find_handler req.path req.method = some h →
        applyPre app.middlewares req = .ok req2 →
        h.handle req2 = .error e →
        process_request app req = .ok (Response.from_error e)) ∧
    (∀ (m : MW) (ms : List MW) (r : Response) (e : Err),
        m.post r = .error e →
        applyPost (m :: ms) r = applyPost ms (Response.from_error e)) := by
  constructor
  · intro app req req2 h e hf hp hh
    simp [process_request, hf, hp, hh]
  · intro m ms r e hp
    simp [applyPost, hp]

/-- C1 witness: the amended dispatcher behaviour at the concrete fixture. -/
theorem C1_witness :
    process_request exApp exReq = .ok (Response.from_error (.internalServerError "boom")) :=
  C1_theorem.1 exApp exReq exReq exHandler (.internalServerError "boom") rfl rfl rfl

/-- C2 counterexample: two route-not-found errors surfaced by run_cgi carry
the same status but different bodies, and the body embeds the internal
error message, so the body is not determined by the status code alone. -/
theorem C2_counterexample :
    (cgiErrorResponse (.routeNotFound "GET /a")).status =
      (cgiErrorResponse (.routeNotFound "GET /b")).status ∧
    (cgiErrorResponse (.routeNotFound "GET /a")).body ≠
      (cgiErrorResponse (.routeNotFound "GET /b")).body ∧
    (cgiErrorResponse (.routeNotFound "GET /a")).body =
      some (utf8Bytes "Not Found: GET /a") := by
  refine ⟨rfl, ?_, rfl⟩
  decide

/-- C2 amended: responses built through Response::from_error (handler and
post-middleware errors), the panic response and the 413 response have
short fixed bodies keyed purely off the status code; but run_cgi's
top-level conversion of a propagated route-not-found error embeds the
error message in the body. -/
theorem C2_theorem :
    (∀ e1 e2 : Err, e1.status_code = e2.status_code →
        Response.from_error e1 = Response.from_error e2) ∧
    (∀ e : Err, (Response.from_error e).body =
        some (utf8Bytes (statusFixedMessage e.status_code))) ∧
    panicResponse.body = some (utf8Bytes "Internal Server Error") ∧
    payloadTooLargeResponse.status = 413 ∧
    payloadTooLargeResponse.body = some (utf8Bytes "Payload Too Large") ∧
    (∀ msg, (cgiErrorResponse (.routeNotFound msg)).body =
        some (utf8Bytes ("Not Found: " ++ msg))) := by
  refine ⟨?_, ?_, rfl, rfl, rfl, fun msg => rfl⟩
  · intro e1 e2 h
    unfold Response.from_error
    rw [h]
  · intro e
    rfl

/-- C2 witness: two different errors with equal status codes produce the
identical fixed response. -/
theorem C2_witness :
    Response.from_error (.middlewareError "a") = Response.from_error (.internalServerError "b") :=
  C2_theorem.1 (.middlewareError "a") (.internalServerError "b") rfl

/-- When the whole decoded stream fits in the limit, the guard never fires
and the loop accumulates every chunk. -/
theorem gzipLoop_ok (max : Nat) :
    ∀ (chunks : List (List Nat)) (acc : List Nat),
      acc.length + chunks.flatten.length ≤ max →
      gzipLoop max acc chunks none = .ok (acc ++ chunks.flatten) := by
  intro chunks
  induction chunks with
  | nil =>
    intro acc h
    simp [gzipLoop]
  | cons c cs ih =>
    intro acc h
    simp only [List.flatten_cons, List.length_append] at h
    have hng : ¬ (acc.length + c.length > max) := by omega
    have h2 : (acc ++ c).length + cs.flatten.length ≤ max := by
      simp only [List.length_append]
      omega
    simp only [gzipLoop, if_neg hng]
    rw [ih (acc ++ c) h2]
    simp only [List.flatten_cons, List.append_assoc]

/-- When the decoded stream exceeds the limit, the loop aborts with the
payload-too-large error at the first chunk that would cross the limit,
having buffered only the chunks before it. -/
theorem gzipLoop_too_large (max : Nat) :
    ∀ (chunks : List (List Nat)) (acc : List Nat) (t : Option String),
      acc.length ≤ max →
      acc.length + chunks.flatten.length > max →
      gzipLoop max acc chunks t = .error (.payloadTooLarge "Decompressed body too large") ∧
      ∃ pre ch post, chunks = pre ++ ch :: post ∧
        acc.length + pre.flatten.length ≤ max ∧
        acc.length + pre.flatten.length + ch.length > max := by
  intro chunks
  induction chunks with
  | nil =>
    intro acc t h1 h2
    simp at h2
    omega
  | cons c cs ih =>
    intro acc t h1 h2
    simp only [List.flatten_cons, List.length_append] at h2
    by_cases hg : acc.length + c.length > max
    · refine ⟨by simp only [gzipLoop, if_pos hg], [], c, cs, rfl, ?_, ?_⟩
      · simp only [List.flatten_nil, List.length_nil]
        omega
      · simp only [List.flatten_nil, List.length_nil]
        omega
    · have h1a : (acc ++ c).length ≤ max := by
        simp only [List.length_append]
        omega
      have h2b : (acc ++ c).length + cs.flatten.length > max := by
        simp only [List.length_append]
        omega
      obtain ⟨heq, pre, ch, post, hsplit, hb1, hb2⟩ := ih (acc ++ c) t h1a h2b
      simp only [List.length_append] at hb1 hb2
      refine ⟨?_, c :: pre, ch, post, by rw [hsplit, List.cons_append], ?_, ?_⟩
      · simp only [gzipLoop, if_neg hg]
        exact heq
      · simp only [List.flatten_cons, List.length_append]
        omega
      · simp only [List.flatten_cons, List.length_append]
        omega

/-- A decode error after chunks that fit the limit surfaces as the
invalid-request-body error. -/
theorem gzipLoop_decode_err (max : Nat) :
    ∀ (chunks : List (List Nat)) (acc : List Nat) (emsg : String),
      acc.length + chunks.flatten.length ≤ max →
      gzipLoop max acc chunks (some emsg) =
        .error (.invalidRequestBody ("Invalid gzip-encoded request body: " ++ emsg)) := by
  intro chunks
  induction chunks with
  | nil =>
    intro acc emsg h
    simp [gzipLoop]
  | cons c cs ih =>
    intro acc emsg h
    simp only [List.flatten_cons, List.length_append] at h
    have hng : ¬ (acc.length + c.length > max) := by omega
    have h2 : (acc ++ c).length + cs.flatten.length ≤ max := by
      simp only [List.length_append]
      omega
    simp only [gzipLoop, if_neg hng]
    exact ih (acc ++ c) emsg h2

/-- C4: for a request declaring gzip content-encoding (case-insensitively),
decompression with a decoded size within the limit returns exactly the
decoder output (round trip) and removes the content-encoding header; a
decoded size beyond the limit aborts with the payload-too-large error at
the first chunk crossing the limit, before the full payload is buffered;
and a malformed stream (within-limit prefix) yields the distinct
invalid-request-body error. -/
theorem C4_theorem :
    (∀ (decode : List Nat → List (List Nat) × Option String) (max : Nat) (req : Request)
        (enc : String) (comp : List Nat) (chunks : List (List Nat)),
        amGet req.headers "content-encoding" = some enc →
        asciiLower enc = "gzip" →
        req.body = some comp →
        decode comp = (chunks, none) →
        chunks.flatten.length ≤ max →
        decompress_gzip_body decode max req =
          .ok { req with body := some chunks.flatten,
                         headers := amRemove req.headers "content-encoding" }) ∧
    (∀ (decode : List Nat → List (List Nat) × Option String) (max : Nat) (req : Request)
        (enc : String) (comp : List Nat) (chunks : List (List Nat)) (t : Option String),
        amGet req.headers "content-encoding" = some enc →
        asciiLower enc = "gzip" →
        req.body = some comp →
        decode comp = (chunks, t) →
        chunks.flatten.length > max →
        decompress_gzip_body decode max req =
          .error (.payloadTooLarge "Decompressed body too large") ∧
        ∃ pre ch post, chunks = pre ++ ch :: post ∧
          pre.flatten.length ≤ max ∧ pre.flatten.length + ch.length > max) ∧
    (∀ (decode : List Nat → List (List Nat) × Option String) (max : Nat) (req : Request)
        (enc : String) (comp : List Nat) (chunks : List (List Nat)) (emsg : String),
        amGet req.headers "content-encoding" = some enc →
        asciiLower enc = "gzip" →
        req.body = some comp →
        decode comp = (chunks, some emsg) →
        chunks.flatten.length ≤ max →
        decompress_gzip_body decode max req =
          .error (.invalidRequestBody ("Invalid gzip-encoded request body: " ++ emsg))) := by
  refine ⟨?_, ?_, ?_⟩
  · intro decode max req enc comp chunks hget hlow hbody hdec hfit
    simp only [decompress_gzip_body, hget, hlow, hbody, hdec, if_pos]
    rw [gzipLoop_ok max chunks [] (by simpa using hfit)]
    simp
  · intro decode max req enc comp chunks t hget hlow hbody hdec hbig
    have hloop := gzipLoop_too_large max chunks [] t (by simp) (by simpa using hbig)
    obtain ⟨heq, pre, ch, post, hsplit, hb1, hb2⟩ := hloop
    constructor
    · simp only [decompress_gzip_body, hget, hlow, hbody, hdec, if_pos]
      rw [heq]
    · exact ⟨pre, ch, post, hsplit, by simpa using hb1, by simpa using hb2⟩
  · intro decode max req enc comp chunks emsg hget hlow hbody hdec hfit
    simp only [decompress_gzip_body, hget, hlow, hbody, hdec, if_pos]
    rw [gzipLoop_decode_err max chunks [] emsg (by simpa using hfit)]

/-- C4 witness: the three branches at concrete decoders and a concrete gzip
request. -/
theorem C4_witness :
    decompress_gzip_body exDecodeOk 5 exGzipReq =
      .ok { exGzipReq with body := some [10, 20, 30],
                           headers := amRemove exGzipReq.headers "content-encoding" } ∧
    decompress_gzip_body exDecodeBig 3 exGzipReq =
      .error (.payloadTooLarge "Decompressed body too large") ∧
    decompress_gzip_body exDecodeErr 5 exGzipReq =
      .error (.invalidRequestBody
        ("Invalid gzip-encoded request body: " ++ "corrupt deflate stream")) := by
  refine ⟨?_, ?_, ?_⟩
  · exact C4_theorem.1 exDecodeOk 5 exGzipReq "gzip" [9, 9] [[10, 20], [30]]
      (by decide) (by decide) (by decide) (by decide) (by decide)
  · exact (C4_theorem.2.1 exDecodeBig 3 exGzipReq "gzip" [9, 9] [[1, 2, 3, 4]] none
      (by decide) (by decide) (by decide) (by decide) (by decide)).1
  · exact C4_theorem.2.2 exDecodeErr 5 exGzipReq "gzip" [9, 9] [] "corrupt deflate stream"
      (by decide) (by decide) (by decide) (by decide) (by decide)

set_option maxRecDepth 20000 in
/-- C5: the Set-Cookie splitter frames end-to-end scenario D into exactly the
three expected cookies, and the framer emits exactly three Set-Cookie
lines for it, the third retaining the comma inside its Expires date. -/
theorem C5_theorem :
    split_set_cookie_header scenarioDValue =
      ["a=1; Path=/", "b=2; Path=/; Secure",
       "c=3; Expires=Tue, 31 Dec 2024 23:59:59 GMT; Path=/"] ∧
    (write_response_to scenarioDResponse).1 =
      ["Status: 200 OK", "Set-Cookie: a=1; Path=/", "Set-Cookie: b=2; Path=/; Secure",
       "Set-Cookie: c=3; Expires=Tue, 31 Dec 2024 23:59:59 GMT; Path=/"] ∧
    ((write_response_to scenarioDResponse).1.countP
      fun l => ("Set-Cookie: ").data.isPrefixOf l.data) = 3 := by
  refine ⟨by decide, by decide, by decide⟩

/-- An invalid non-reserved header anywhere in the map aborts the egress
collection. -/
theorem collect_none (hs : List (String × String))
    (h : ∃ p ∈ hs, isReservedHeader p.1 = false ∧
        (is_valid_header_name p.1 && is_valid_header_value p.2) = false) :
    collectSanitized hs = none := by
  induction hs with
  | nil =>
    rcases h with ⟨p, hp, _⟩
    simp at hp
  | cons q rest ih =>
    obtain ⟨k0, v0⟩ := q
    rcases h with ⟨p, hp, hres, hbad⟩
    rcases List.mem_cons.mp hp with heq | hmem
    · subst heq
      simp only [collectSanitized]
      rw [if_neg (by simp [hres]), if_neg (by simp [hbad])]
    · show collectSanitized ((k0, v0) :: rest) = none
      simp only [collectSanitized]
      split_ifs with hr hv
      · exact ih ⟨p, hmem, hres, hbad⟩
      · rw [ih ⟨p, hmem, hres, hbad⟩]
        rfl
      · rfl

/-- When every non-reserved header is valid, the egress collection succeeds
and keeps exactly the non-reserved headers in order. -/
theorem collect_valid (hs : List (String × String))
    (h : ∀ p ∈ hs, isReservedHeader p.1 = false →
        (is_valid_header_name p.1 && is_valid_header_value p.2) = true) :
    collectSanitized hs = some (hs.filter fun p => !isReservedHeader p.1) := by
  induction hs with
  | nil => rfl
  | cons q rest ih =>
    obtain ⟨k0, v0⟩ := q
    have ihr := ih fun p hp => h p (List.mem_cons_of_mem _ hp)
    simp only [collectSanitized]
    by_cases hr : isReservedHeader k0 = true
    · rw [if_pos hr, ihr]
      simp [List.filter_cons, hr]
    · have hrf : isReservedHeader k0 = false := by
        simpa using hr
      have hv := h (k0, v0) (List.mem_cons_self _ _) hrf
      rw [if_neg hr, if_pos hv, ihr]
      simp [List.filter_cons, hrf]

/-- C6: the CGI framer re-validates every non-reserved header name and value
immediately before writing (Status and Content-Length are framer-owned and
skipped); whenever any header fails the check, the emitted output is the
fixed safe 400 frame with its fixed body and no header line of the
original response; when all pass, the frame is built from exactly the
non-reserved headers of the response. -/
theorem C6_theorem (resp : Response) :
    ((∃ p ∈ resp.headers, isReservedHeader p.1 = false ∧
        (is_valid_header_name p.1 && is_valid_header_value p.2) = false) →
      write_response_to resp =
        (["Status: 400 Bad Request", "Content-Length: 27"],
         some (utf8Bytes "Bad Request: Invalid header"))) ∧
    ((∀ p ∈ resp.headers, isReservedHeader p.1 = false →
        (is_valid_header_name p.1 && is_valid_header_value p.2) = true) →
      write_response_to resp =
        (frameLines resp (resp.headers.filter fun p => !isReservedHeader p.1), resp.body)) := by
  constructor
  · intro h
    unfold write_response_to
    rw [collect_none resp.headers h]
    show (frameLines safe400 [], safe400.body) =
      (["Status: 400 Bad Request", "Content-Length: 27"],
       some (utf8Bytes "Bad Request: Invalid header"))
    decide
  · intro h
    unfold write_response_to
    rw [collect_valid resp.headers h]

/-- C6 witness: concrete responses for both branches of the egress check. -/
theorem C6_witness :
    write_response_to exBadResp =
      (["Status: 400 Bad Request", "Content-Length: 27"],
       some (utf8Bytes "Bad Request: Invalid header")) ∧
    write_response_to exGoodResp =
      (frameLines exGoodResp (exGoodResp.headers.filter fun p => !isReservedHeader p.1),
       exGoodResp.body) := by
  constructor
  · exact (C6_theorem exBadResp).1 ⟨("X-Bad", "a\nb"), by decide, by decide, by decide⟩
  · exact (C6_theorem exGoodResp).2 (by decide)

/-- C7: a CONTENT_LENGTH that parses beyond the configured maximum makes body
reading fail with payload-too-large before consuming any byte of standard
input, and run_cgi then produces the fixed 413 response; a positive
CONTENT_LENGTH within the limit reads exactly that many bytes as the
body. -/
theorem C7_theorem :
    (∀ (s : String) (max : Nat) (stdin : List Nat) (n : Nat),
        parseUsize s = some n → n > max →
        read_request_body (some s) max stdin =
          (.error (.payloadTooLarge "Request body size exceeds maximum allowed size"), 0) ∧
        runCgiBodyOutcome (some s) max stdin = .error (.inl payloadTooLargeResponse) ∧
        payloadTooLargeResponse.status = 413) ∧
    (∀ (s : String) (max : Nat) (stdin : List Nat) (n : Nat),
        parseUsize s = some n → 0 < n → n ≤ max → n ≤ stdin.length →
        read_request_body (some s) max stdin = (.ok (some (stdin.take n)), n) ∧
        (stdin.take n).length = n) := by
  constructor
  · intro s max stdin n hp hgt
    have h0 : n > 0 := by omega
    have hr : read_request_body (some s) max stdin =
        (.error (.payloadTooLarge "Request body size exceeds maximum allowed size"), 0) := by
      simp [read_request_body, hp, h0, hgt]
    refine ⟨hr, ?_, rfl⟩
    simp [runCgiBodyOutcome, hr]
  · intro s max stdin n hp h0 hle hst
    have hng : ¬ (n > max) := by omega
    constructor
    · simp [read_request_body, hp, h0, hng, hst]
    · simp [List.length_take]
      omega

/-- C7 witness: an oversized declared length is rejected with zero bytes
consumed and the fixed 413, and a within-limit length reads exactly that
many bytes. -/
theorem C7_witness :
    read_request_body (some "10") 5 [] =
      (.error (.payloadTooLarge "Request body size exceeds maximum allowed size"), 0) ∧
    runCgiBodyOutcome (some "10") 5 [] = .error (.inl payloadTooLargeResponse) ∧
    read_request_body (some "3") 10 [1, 2, 3, 4] = (.ok (some [1, 2, 3]), 3) := by
  have h1 := C7_theorem.1 "10" 5 [] 10 (by decide) (by omega)
  have h2 := C7_theorem.2 "3" 10 [1, 2, 3, 4] 3 (by decide) (by omega) (by omega) (by decide)
  exact ⟨h1.1, h1.2.1, h2.1⟩

/-- The ordered-insert fold underlying the tie-reversing sort permutes its
input. -/
theorem antiStable_foldl_perm :
    ∀ (l acc : List HandlerM),
      (l.foldl (fun a e => List.orderedInsert depthGE e a) acc).Perm (l ++ acc) := by
  intro l
  induction l with
  | nil => intro acc; simp
  | cons x xs ih =>
    intro acc
    simp only [List.foldl_cons]
    have h1 := ih (List.orderedInsert depthGE x acc)
    have h2 : (xs ++ List.orderedInsert depthGE x acc).Perm (xs ++ x :: acc) :=
      List.Perm.append_left xs (List.perm_orderedInsert depthGE x acc)
    have h3 : (xs ++ x :: acc).Perm (x :: (xs ++ acc)) := List.perm_middle
    have h4 := (h1.trans h2).trans h3
    simpa using h4

/-- The ordered-insert fold underlying the tie-reversing sort keeps the
accumulator sorted by descending slash count. -/
theorem antiStable_foldl_sorted :
    ∀ (l acc : List HandlerM), List.Sorted depthGE acc →
      List.Sorted depthGE (l.foldl (fun a e => List.orderedInsert depthGE e a) acc) := by
  intro l
  induction l with
  | nil => intro acc h; simpa using h
  | cons x xs ih =>
    intro acc h
    simp only [List.foldl_cons]
    exact ih _ (List.Sorted.orderedInsert x acc h)

/-- The tie-reversing insertion sort satisfies the contract of
sort_unstable_by with the slash-count comparator. -/
theorem antiStable_conforming : ConformingSort antiStableSort := by
  intro l
  constructor
  · simpa using antiStable_foldl_perm l []
  · exact antiStable_foldl_sorted l [] List.sorted_nil

/-- Registration with any conforming sort permutes the registered entries. -/
theorem registerAll_foldl_perm (f : List HandlerM → List HandlerM) (hf : ConformingSort f) :
    ∀ (regs acc : List HandlerM),
      (regs.foldl (fun a e => f (a ++ [e])) acc).Perm (acc ++ regs) := by
  intro regs
  induction regs with
  | nil => intro acc; simp
  | cons x xs ih =>
    intro acc
    simp only [List.foldl_cons]
    have h1 := ih (f (acc ++ [x]))
    have h3 : (f (acc ++ [x]) ++ xs).Perm ((acc ++ [x]) ++ xs) :=
      List.Perm.append_right xs (hf (acc ++ [x])).1
    have h4 := h1.trans h3
    simpa [List.append_assoc] using h4

/-- Registration with any conforming sort leaves the table depth-sorted. -/
theorem registerAll_foldl_sorted (f : List HandlerM → List HandlerM) (hf : ConformingSort f) :
    ∀ (regs acc : List HandlerM), List.Sorted depthGE acc →
      List.Sorted depthGE (regs.foldl (fun a e => f (a ++ [e])) acc) := by
  intro regs
  induction regs with
  | nil => intro acc h; simpa using h
  | cons x xs ih =>
    intro acc h
    simp only [List.foldl_cons]
    exact ih _ (hf (acc ++ [x])).2

/-- A successful find? returns the first satisfying element: everything
before it in the list fails the predicate. -/
theorem find?_first {α : Type} (p : α → Bool) :
    ∀ (l : List α) (a : α), l.find? p = some a →
      p a = true ∧ ∃ pre post, l = pre ++ a :: post ∧ ∀ x ∈ pre, p x = false := by
  intro l
  induction l with
  | nil => intro a h; simp at h
  | cons x xs ih =>
    intro a h
    by_cases hx : p x = true
    · rw [List.find?_cons_of_pos _ hx] at h
      cases h
      exact ⟨hx, [], xs, rfl, by simp⟩
    · have hxf : p x = false := by simpa using hx
      rw [List.find?_cons_of_neg _ hx] at h
      obtain ⟨hpa, pre, post, hsplit, hpre⟩ := ih a h
      refine ⟨hpa, x :: pre, post, by rw [hsplit, List.cons_append], ?_⟩
      intro y hy
      rcases List.mem_cons.mp hy with rfl | hmem
      · exact hxf
      · exact hpre y hmem

/-- C8 counterexample: the registration sort is Vec::sort_unstable_by, whose
contract does not constrain the order of entries with equal slash counts;
a contract-conforming sort behaviour reverses the registration order of
two equal-depth routes, so the claimed stable tie-break does not hold. -/
theorem C8_counterexample :
    ConformingSort antiStableSort ∧
    slashes exEntryA.path_pattern = slashes exEntryB.path_pattern ∧
    (registerAll antiStableSort [exEntryA, exEntryB]).map (fun h => h.rid) = [2, 1] := by
  refine ⟨antiStable_conforming, rfl, ?_⟩
  decide

/-- C8 amended: after any registration sequence under any sort satisfying
the comparator contract, the route table is a permutation of the
registered entries sorted by descending slash count (deeper patterns are
tried first regardless of registration order; the relative order of
equal-depth entries is unspecified), and lookup returns the first entry
in table order whose method and pattern both match. -/
theorem C8_theorem :
    (∀ (f : List HandlerM → List HandlerM), ConformingSort f →
      ∀ regs : List HandlerM,
        (registerAll f regs).Perm regs ∧ List.Sorted depthGE (registerAll f regs)) ∧
    (∀ (hs : List HandlerM) (path : String) (m : Method) (h : HandlerM),
        find_route hs path m = some h →
        h.matches path m = true ∧
        ∃ pre post, hs = pre ++ h :: post ∧ ∀ h2 ∈ pre, h2.matches path m = false) := by
  constructor
  · intro f hf regs
    constructor
    · simpa using registerAll_foldl_perm f hf regs []
    · exact registerAll_foldl_sorted f hf regs [] List.sorted_nil
  · intro hs path m h hfind
    exact find?_first _ hs h hfind

/-- C8 witness: the amended table properties at a concrete conforming sort
and a concrete two-route table lookup. -/
theorem C8_witness :
    (registerAll antiStableSort [exEntryA, exEntryB]).Perm [exEntryA, exEntryB] ∧
    List.Sorted depthGE (registerAll antiStableSort [exEntryA, exEntryB]) ∧
    exEntryA.matches "/a" Method.GET = true := by
  have h1 := C8_theorem.1 antiStableSort antiStable_conforming [exEntryA, exEntryB]
  have h2 := C8_theorem.2 [exEntryB, exEntryA] "/a" Method.GET exEntryA rfl
  exact ⟨h1.1, h1.2, h2.1⟩

set_option maxRecDepth 20000 in
/-- C9: the claim that the redaction function returns a result for every
input string is violated by the code: for the non-sensitive key
HTTP_USER_AGENT and a 202-byte value whose byte index 200 falls inside a
multi-byte character, the truncation branch slices the value at a
non-boundary byte index, which panics in Rust (modelled as none). -/
theorem C9_theorem : redact_value_for_log redactKey redactVal = none := by
  decide

/-- C10: a header pair whose value contains CR, LF or a non-tab control
character is silently dropped by Request::with_header,
Response::with_header and ResponseBuilder::header, leaving the object
completely unchanged; by contrast ResponseBuilder::headers (bulk
insertion) stores the pair without any value validation. -/
theorem C10_theorem :
    (∀ (r : Request) (k v : String), hasBadHeaderChar v = true → r.with_header k v = r) ∧
    (∀ (r : Response) (k v : String), hasBadHeaderChar v = true → r.with_header k v = r) ∧
    (∀ (b : ResponseBuilder) (k v : String), hasBadHeaderChar v = true → b.header k v = b) ∧
    (∀ (b : ResponseBuilder) (k v : String),
        amGet ((b.headersExtend [(k, v)]).headers) k = some v) := by
  refine ⟨?_, ?_, ?_, ?_⟩
  · intro r k v h
    simp [Request.with_header, bad_char_invalid v h]
  · intro r k v h
    simp [Response.with_header, bad_char_invalid v h]
  · intro b k v h
    simp [ResponseBuilder.header, bad_char_invalid v h]
  · intro b k v
    exact amGet_amInsert b.headers k v

/-- C10 witness: concrete invalid header values dropped by each builder and
kept by the bulk insertion. -/
theorem C10_witness :
    (Request.new .GET "/").with_header "X-Evil" "a\rb" = Request.new .GET "/" ∧
    (Response.new 200).with_header "X-Evil" "bad\nvalue" = Response.new 200 ∧
    (ResponseBuilder.new 200).header "B" "bad\rvalue" = ResponseBuilder.new 200 ∧
    amGet (((ResponseBuilder.new 200).headersExtend [("X-Raw", "evil\nvalue")]).headers)
      "X-Raw" = some "evil\nvalue" := by
  exact ⟨C10_theorem.1 _ _ _ (by decide), C10_theorem.2.1 _ _ _ (by decide),
    C10_theorem.2.2.1 _ _ _ (by decide), C10_theorem.2.2.2 _ _ _⟩

end RunBridge
